import Mathlib

/-!
Shallow embedding of the `useBatch` hook (batching queue) of this repository.

The hook keeps three pieces of mutable state:
  * `batchRef : Map<string | number, any>` — the dedup map (`seen` in the spec),
  * `queueRef : Set<any>` — the pending queue (`pending` in the spec),
  * `timeoutRef : any` — the handle of the scheduled flush timer, or `null`.

JavaScript `Map` and `Set` iterate in insertion order, so both are embedded as
lists: the map as an association list (`set` overwrites in place or appends),
the set as a duplicate-free list (`add` is a no-op on a present value, appends
otherwise).  Payload values are compared the way the JS `Set`/`Map` compare
them (SameValueZero, i.e. reference identity for objects); this is embedded by
an arbitrary decidable equality on the payload type.

`setTimeout`/`clearTimeout` are embedded with a supply of fresh handles: the
state records the handle currently stored in `timeoutRef` and the list of
timers that have been armed but neither fired nor cancelled (together with the
delay each was armed with).  Firing a timer is an external event of the step
semantics, possible exactly for armed, uncancelled handles.

Invocations of `onBatchCallback` are recorded as an event trace: each event is
the `Array.from(queueRef.current)` snapshot passed to the callback.
-/

set_option linter.unusedVariables false
set_option linter.unusedSectionVars false

/-- JavaScript primitive values, used for payload fields and dedup keys. -/
inductive JSVal : Type
  | undef
  | null
  | bool (b : Bool)
  | num (n : Int)
  | str (s : String)
deriving DecidableEq, Repr

namespace JSVal

/-- JavaScript truthiness of a primitive value. -/
def truthy : JSVal → Bool
  | undef => false
  | null => false
  | bool b => b
  | num n => n != 0
  | str s => s != ""

/-- Coercion of a value to a property name, as JavaScript performs for `data[k]`. -/
def propName : JSVal → String
  | undef => "undefined"
  | null => "null"
  | bool b => cond b "true" "false"
  | num n => toString n
  | str s => s

end JSVal

/-- A JavaScript object payload: a reference identity plus its own fields. -/
structure JsObj : Type where
  ref : Nat
  fields : List (String × JSVal)
deriving DecidableEq, Repr

/-- Property read `d[name]`: the field value when present, `undefined` otherwise. -/
def JsObj.getField (d : JsObj) (name : String) : JSVal :=
  match d.fields.find? (fun p => p.1 == name) with
  | some p => p.2
  | none => JSVal.undef

/-- The `BatchOptionsInterface` argument of `useBatch`.  Absent optional fields
are `none`; `onBatchCallback` records only whether a function was provided
(its behaviour is observed through the event trace). -/
structure BatchOptions (V : Type) : Type where
  timeout : Option Int
  threshold : Option Int
  batchKey : Option JSVal
  onHitCallback : Option (V → V)
  onBatchCallback : Bool

/-- `const TIMEOUT = timeout || 10;`  (`0` is falsy in JavaScript). -/
def TIMEOUT {V : Type} (o : BatchOptions V) : Int :=
  match o.timeout with
  | none => 10
  | some t => if t = 0 then 10 else t

/-- `const THRESHOLD = threshold || 1;` -/
def THRESHOLD {V : Type} (o : BatchOptions V) : Int :=
  match o.threshold with
  | none => 1
  | some t => if t = 0 then 1 else t

/-- `const BATCH_KEY = batchKey || '';`  (`''` and `0` are falsy). -/
def BATCH_KEY {V : Type} (o : BatchOptions V) : JSVal :=
  match o.batchKey with
  | none => JSVal.str ""
  | some k => if k.truthy then k else JSVal.str ""

/-- Lines 136–139 of `useBatch.addQueue`: `onHitCallback` applied to the data
when provided, the raw data otherwise. -/
def applyHit {V : Type} (o : BatchOptions V) (d : V) : V :=
  match o.onHitCallback with
  | some f => f d
  | none => d

/-- The mutable state of one `useBatch` instance. -/
structure BatchState (K V : Type) : Type where
  /-- `batchRef.current : Map` as an insertion-ordered association list. -/
  batch : List (K × V)
  /-- `queueRef.current : Set` as an insertion-ordered duplicate-free list. -/
  queue : List V
  /-- `timeoutRef.current`: the stored timer handle, or `null`. -/
  timeoutHandle : Option Nat
  /-- Timers armed and not yet fired nor cancelled, with their delays. -/
  active : List (Nat × Int)
  /-- Supply of fresh timer handles. -/
  nextId : Nat
deriving DecidableEq, Repr

/-- The state right after `useBatch` is invoked: empty map, empty set, no timer. -/
def initState (K V : Type) : BatchState K V := ⟨[], [], none, [], 0⟩

/-- `Map.prototype.has`. -/
def mapHas {K V : Type} [DecidableEq K] (m : List (K × V)) (k : K) : Bool :=
  m.any (fun p => p.1 == k)

/-- `Map.prototype.set`: overwrite in place when the key is present, append otherwise. -/
def mapSet {K V : Type} [DecidableEq K] (m : List (K × V)) (k : K) (v : V) :
    List (K × V) :=
  if mapHas m k then m.map (fun p => if p.1 == k then (k, v) else p)
  else m ++ [(k, v)]

/-- `Set.prototype.add`: no-op when the value is present, append otherwise. -/
def setAdd {V : Type} [DecidableEq V] (q : List V) (v : V) : List V :=
  if v ∈ q then q else q ++ [v]

/-- `getQueue`: `Array.from(queueRef.current)` — a snapshot in insertion order. -/
def getQueue {K V : Type} (s : BatchState K V) : List V := s.queue

/-- `getBatch`: `new Map(batchRef.current)` — a snapshot of the dedup map. -/
def getBatch {K V : Type} (s : BatchState K V) : List (K × V) := s.batch

section Transitions

variable {K V : Type} [DecidableEq K] [DecidableEq V]

/-- `_enqueueBatch`: add the item to the batch map and to the queue set. -/
def enqueueBatch (key : K) (item : V) (s : BatchState K V) : BatchState K V :=
  { s with batch := mapSet s.batch key item, queue := setAdd s.queue item }

/-- Lines 81–84 of `_consumeQueue`: `clearTimeout` on the stored handle (which
removes it from the armed timers) and reset `timeoutRef.current` to `null`. -/
def clearTimer (s : BatchState K V) : BatchState K V :=
  match s.timeoutHandle with
  | some h => { s with timeoutHandle := none,
                       active := s.active.filter (fun p => p.1 != h) }
  | none => s

/-- `_consumeQueue`: clear the timer, invoke `onBatchCallback` with a snapshot
of the queue when the queue is non-empty and a callback was provided, then
clear the queue.  The batch map is NOT touched here. -/
def consumeQueue (o : BatchOptions V) (s : BatchState K V) :
    BatchState K V × List (List V) :=
  let s1 := clearTimer s
  let ev := if !s1.queue.isEmpty && o.onBatchCallback then [s1.queue] else []
  ({ s1 with queue := [] }, ev)

/-- `_scheduleQueueConsumption`: arm a fresh timer with delay `TIMEOUT` and
store its handle in `timeoutRef.current`. -/
def scheduleQueueConsumption (o : BatchOptions V) (s : BatchState K V) :
    BatchState K V :=
  { s with active := s.active ++ [(s.nextId, TIMEOUT o)],
           timeoutHandle := some s.nextId,
           nextId := s.nextId + 1 }

/-- `_cleanupQueue`: consume the queue, then clear both the batch map and the
queue unconditionally. -/
def cleanupQueue (o : BatchOptions V) (s : BatchState K V) :
    BatchState K V × List (List V) :=
  let r := consumeQueue o s
  ({ r.1 with batch := [], queue := [] }, r.2)

/-- Lines 136–152 of `addQueue` after the duplicate check: transform the data
with `onHitCallback`, `_enqueueBatch` it, and schedule consumption when no
timer handle is held. -/
def addStaged (o : BatchOptions V) (key : K) (data : V) (s : BatchState K V) :
    BatchState K V :=
  let payload := applyHit o data
  let s1 := enqueueBatch key payload s
  if s1.timeoutHandle.isNone then scheduleQueueConsumption o s1 else s1

/-- `addQueue(data)` given the already-derived dedup key: return unchanged on a
key already in the batch map; otherwise enqueue, possibly schedule, and consume
immediately when the queue size has reached `THRESHOLD`. -/
def addQueue (o : BatchOptions V) (key : K) (data : V) (s : BatchState K V) :
    BatchState K V × List (List V) :=
  if mapHas s.batch key then (s, [])
  else
    let s2 := addStaged o key data s
    if THRESHOLD o ≤ (s2.queue.length : Int) then consumeQueue o s2
    else (s2, [])

/-- Line 126 of `addQueue`: `const key = data[BATCH_KEY] || Date.now();`.
`now` is the clock reading at the moment of this call. -/
def deriveKey (o : BatchOptions JsObj) (d : JsObj) (now : Int) : JSVal :=
  let v := d.getField (BATCH_KEY o).propName
  if v.truthy then v else JSVal.num now

/-- `addQueue(data)` exactly as in the source, deriving the key from the payload. -/
def addQueueJS (o : BatchOptions JsObj) (now : Int) (d : JsObj)
    (s : BatchState JSVal JsObj) : BatchState JSVal JsObj × List (List JsObj) :=
  addQueue o (deriveKey o d now) d s

/-- External events driving one queue instance: an `addQueue` call, the firing
of an armed timer, and the unmount/beforeunload cleanup. -/
inductive Cmd (K V : Type) : Type
  | add (key : K) (data : V)
  | fire (h : Nat)
  | cleanup

/-- One step of the event semantics.  A `fire h` event for a handle that is not
armed (never armed, already fired, or cancelled by `clearTimeout`) is a no-op;
an armed timer that fires is spent, and its callback (lines 99–103) consumes
the queue only when the queue is non-empty. -/
def runCmd (o : BatchOptions V) (c : Cmd K V) (s : BatchState K V) :
    BatchState K V × List (List V) :=
  match c with
  | Cmd.add key data => addQueue o key data s
  | Cmd.fire h =>
      if s.active.any (fun p => p.1 == h) then
        let s0 := { s with active := s.active.filter (fun p => p.1 != h) }
        if !s0.queue.isEmpty then consumeQueue o s0 else (s0, [])
      else (s, [])
  | Cmd.cleanup => cleanupQueue o s

/-- Run a list of events from a given state, concatenating the flush traces. -/
def runFrom (o : BatchOptions V) (s : BatchState K V) :
    List (Cmd K V) → BatchState K V × List (List V)
  | [] => (s, [])
  | c :: cs =>
      let r1 := runCmd o c s
      let r2 := runFrom o r1.1 cs
      (r2.1, r1.2 ++ r2.2)

/-- Run a list of events on a freshly created queue instance. -/
def run (o : BatchOptions V) (cmds : List (Cmd K V)) :
    BatchState K V × List (List V) :=
  runFrom o (initState K V) cmds

end Transitions

/-- Events at the JavaScript interface: an `addQueue` call carries the clock
reading used by `Date.now()`. -/
inductive JSCmd : Type
  | add (now : Int) (d : JsObj)
  | fire (h : Nat)
  | cleanup

/-- Interpret a JavaScript-level event: `addQueue` derives the dedup key from
the payload via `BATCH_KEY` and the clock. -/
def toCmd (o : BatchOptions JsObj) : JSCmd → Cmd JSVal JsObj
  | JSCmd.add now d => Cmd.add (deriveKey o d now) d
  | JSCmd.fire h => Cmd.fire h
  | JSCmd.cleanup => Cmd.cleanup

/-- Run JavaScript-level events on a freshly created queue instance. -/
def runJS (o : BatchOptions JsObj) (cmds : List JSCmd) :
    BatchState JSVal JsObj × List (List JsObj) :=
  run o (cmds.map (toCmd o))

/-! ### Basic lemmas about the embedded container operations -/

section Lemmas

variable {K V : Type} [DecidableEq K] [DecidableEq V]

lemma setAdd_of_mem {q : List V} {v : V} (h : v ∈ q) : setAdd q v = q := by
  simp [setAdd, h]

lemma setAdd_of_not_mem {q : List V} {v : V} (h : v ∉ q) :
    setAdd q v = q ++ [v] := by
  simp [setAdd, h]

lemma setAdd_ne_nil (q : List V) (v : V) : setAdd q v ≠ [] := by
  unfold setAdd
  split
  · exact List.ne_nil_of_mem (by assumption)
  · simp

lemma one_le_length_setAdd (q : List V) (v : V) : 1 ≤ (setAdd q v).length := by
  have h := setAdd_ne_nil q v
  cases hq : setAdd q v with
  | nil => exact absurd hq h
  | cons a t => simp

lemma setAdd_nodup {q : List V} {v : V} (h : q.Nodup) : (setAdd q v).Nodup := by
  unfold setAdd
  split
  · exact h
  · simpa [List.nodup_append] using ⟨h, by assumption⟩

lemma mapHas_append (m : List (K × V)) (k : K) (v : V) (k' : K) :
    mapHas (m ++ [(k, v)]) k' = (mapHas m k' || (k == k')) := by
  simp [mapHas]

lemma mapSet_fresh {m : List (K × V)} {k : K} (v : V) (h : mapHas m k = false) :
    mapSet m k v = m ++ [(k, v)] := by
  simp [mapSet, h]

lemma clearTimer_batch (s : BatchState K V) : (clearTimer s).batch = s.batch := by
  cases s with
  | mk b q t a n => cases t <;> simp [clearTimer]

lemma clearTimer_queue (s : BatchState K V) : (clearTimer s).queue = s.queue := by
  cases s with
  | mk b q t a n => cases t <;> simp [clearTimer]

lemma clearTimer_handle (s : BatchState K V) :
    (clearTimer s).timeoutHandle = none := by
  cases s with
  | mk b q t a n => cases t <;> simp [clearTimer]

lemma consumeQueue_fst (o : BatchOptions V) (s : BatchState K V) :
    (consumeQueue o s).1 = { clearTimer s with queue := [] } := rfl

lemma consumeQueue_queue (o : BatchOptions V) (s : BatchState K V) :
    (consumeQueue o s).1.queue = [] := rfl

lemma consumeQueue_batch (o : BatchOptions V) (s : BatchState K V) :
    (consumeQueue o s).1.batch = s.batch := by
  show (clearTimer s).batch = s.batch
  exact clearTimer_batch s

lemma consumeQueue_handle (o : BatchOptions V) (s : BatchState K V) :
    (consumeQueue o s).1.timeoutHandle = none := by
  show (clearTimer s).timeoutHandle = none
  exact clearTimer_handle s

lemma consumeQueue_snd (o : BatchOptions V) (s : BatchState K V) :
    (consumeQueue o s).2
      = if !s.queue.isEmpty && o.onBatchCallback then [s.queue] else [] := by
  show (if !(clearTimer s).queue.isEmpty && o.onBatchCallback
        then [(clearTimer s).queue] else []) = _
  rw [clearTimer_queue]

lemma consumeQueue_flatten (o : BatchOptions V) (s : BatchState K V)
    (hB : o.onBatchCallback = true) :
    (consumeQueue o s).2.flatten = s.queue := by
  rw [consumeQueue_snd, hB]
  cases hq : s.queue <;> simp [hq]

lemma addStaged_queue (o : BatchOptions V) (k : K) (d : V) (s : BatchState K V) :
    (addStaged o k d s).queue = setAdd s.queue (applyHit o d) := by
  unfold addStaged enqueueBatch scheduleQueueConsumption
  dsimp only
  split <;> rfl

lemma addStaged_batch (o : BatchOptions V) (k : K) (d : V) (s : BatchState K V) :
    (addStaged o k d s).batch = mapSet s.batch k (applyHit o d) := by
  unfold addStaged enqueueBatch scheduleQueueConsumption
  dsimp only
  split <;> rfl

lemma addQueue_dup {o : BatchOptions V} {k : K} {d : V} {s : BatchState K V}
    (h : mapHas s.batch k = true) : addQueue o k d s = (s, []) := by
  simp [addQueue, h]

lemma addQueue_fresh {o : BatchOptions V} {k : K} {d : V} {s : BatchState K V}
    (h : mapHas s.batch k = false) :
    addQueue o k d s
      = if THRESHOLD o ≤ ((addStaged o k d s).queue.length : Int)
        then consumeQueue o (addStaged o k d s)
        else (addStaged o k d s, []) := by
  simp [addQueue, h]

end Lemmas

/-! ### The timer invariant: the stored handle, the armed timers and the queue
agree — either no timer is armed and the queue is empty, or exactly one timer
is armed, its handle is the stored one, and the queue is non-empty. -/

section Invariant

variable {K V : Type} [DecidableEq K] [DecidableEq V]

/-- Timer/queue coherence invariant of a `useBatch` instance. -/
def TimerInv (s : BatchState K V) : Prop :=
  (s.timeoutHandle = none ∧ s.active = [] ∧ s.queue = [])
  ∨ (∃ h d, s.timeoutHandle = some h ∧ s.active = [(h, d)] ∧ s.queue ≠ [])

lemma timerInv_initState : TimerInv (initState K V) := Or.inl ⟨rfl, rfl, rfl⟩

lemma timerInv_consumeQueue {s : BatchState K V} (o : BatchOptions V) (hI : TimerInv s) :
    TimerInv (consumeQueue o s).1 := by
  rcases hI with ⟨h1, h2, h3⟩ | ⟨h, d, h1, h2, h3⟩
  · left
    refine ⟨consumeQueue_handle o s, ?_, consumeQueue_queue o s⟩
    show (clearTimer s).active = []
    simp [clearTimer, h1, h2]
  · left
    refine ⟨consumeQueue_handle o s, ?_, consumeQueue_queue o s⟩
    show (clearTimer s).active = []
    simp [clearTimer, h1, h2]

lemma timerInv_cleanupQueue {s : BatchState K V} (o : BatchOptions V) (hI : TimerInv s) :
    TimerInv (cleanupQueue o s).1 := by
  have h := timerInv_consumeQueue o hI
  left
  refine ⟨?_, ?_, rfl⟩
  · show (consumeQueue o s).1.timeoutHandle = none
    exact consumeQueue_handle o s
  · show (consumeQueue o s).1.active = []
    rcases h with ⟨h1, h2, h3⟩ | ⟨hh, dl, h1, h2, h3⟩
    · exact h2
    · rw [consumeQueue_handle] at h1
      cases h1

lemma timerInv_addQueue {s : BatchState K V} (o : BatchOptions V) (k : K) (d : V)
    (hI : TimerInv s) : TimerInv (addQueue o k d s).1 := by
  cases hdup : mapHas s.batch k with
  | true => rw [addQueue_dup hdup]; exact hI
  | false =>
    rw [addQueue_fresh hdup]
    have hstaged : TimerInv (addStaged o k d s) := by
      rcases hI with ⟨h1, h2, h3⟩ | ⟨h, dl, h1, h2, h3⟩
      · right
        refine ⟨s.nextId, TIMEOUT o, ?_, ?_, ?_⟩
        · simp [addStaged, enqueueBatch, scheduleQueueConsumption, h1]
        · simp [addStaged, enqueueBatch, scheduleQueueConsumption, h1, h2]
        · rw [addStaged_queue]; exact setAdd_ne_nil _ _
      · right
        refine ⟨h, dl, ?_, ?_, ?_⟩
        · simp [addStaged, enqueueBatch, scheduleQueueConsumption, h1]
        · simp [addStaged, enqueueBatch, scheduleQueueConsumption, h1, h2]
        · rw [addStaged_queue]; exact setAdd_ne_nil _ _
    split
    · exact timerInv_consumeQueue o hstaged
    · exact hstaged

lemma timerInv_runCmd {s : BatchState K V} (o : BatchOptions V) (c : Cmd K V)
    (hI : TimerInv s) : TimerInv (runCmd o c s).1 := by
  cases c with
  | add k d => exact timerInv_addQueue o k d hI
  | cleanup => exact timerInv_cleanupQueue o hI
  | fire h =>
    show TimerInv (if s.active.any (fun p => p.1 == h) then _ else (s, [])).1
    rcases hI with ⟨h1, h2, h3⟩ | ⟨hh, dl, h1, h2, h3⟩
    · rw [h2]
      simp only [List.any_nil, Bool.false_eq_true, if_false]
      exact Or.inl ⟨h1, h2, h3⟩
    · cases hany : s.active.any (fun p => p.1 == h) with
      | false => simp only [hany, Bool.false_eq_true, if_false]; right; exact ⟨hh, dl, h1, h2, h3⟩
      | true =>
        simp only [hany, if_true]
        have hhh : hh = h := by
          rw [h2] at hany
          simpa using hany
        subst hhh
        have hempty : ({ s with active := s.active.filter (fun p => p.1 != hh) } :
            BatchState K V).queue.isEmpty = false := by
          show s.queue.isEmpty = false
          cases hq : s.queue with
          | nil => exact absurd hq h3
          | cons a t => rfl
        rw [hempty]
        simp only [Bool.not_false, if_true]
        left
        refine ⟨consumeQueue_handle o _, ?_, consumeQueue_queue o _⟩
        show (clearTimer _).active = []
        simp [clearTimer, h1, h2]

lemma timerInv_runFrom {s : BatchState K V} (o : BatchOptions V)
    (cmds : List (Cmd K V)) (hI : TimerInv s) : TimerInv (runFrom o s cmds).1 := by
  induction cmds generalizing s with
  | nil => exact hI
  | cons c cs ih =>
    show TimerInv (runFrom o (runCmd o c s).1 cs).1
    exact ih (timerInv_runCmd o c hI)

lemma timerInv_run (o : BatchOptions V) (cmds : List (Cmd K V)) :
    TimerInv (run o cmds).1 :=
  timerInv_runFrom o cmds timerInv_initState

end Invariant


/-! ### Conservation of accepted payloads across flushes -/

section Conservation

variable {K V : Type} [DecidableEq K] [DecidableEq V]

lemma consumeQueue_events (o : BatchOptions V) (s : BatchState K V) :
    (consumeQueue o s).2 = [] ∨ (consumeQueue o s).2 = [s.queue] := by
  rw [consumeQueue_snd]
  split
  · exact Or.inr rfl
  · exact Or.inl rfl

lemma addQueue_fresh_spec (o : BatchOptions V) {k : K} {d : V}
    {s : BatchState K V} (hB : o.onBatchCallback = true)
    (hk : mapHas s.batch k = false) (hv : applyHit o d ∉ s.queue) :
    (addQueue o k d s).2.flatten ++ (addQueue o k d s).1.queue
        = s.queue ++ [applyHit o d]
    ∧ (addQueue o k d s).1.batch = s.batch ++ [(k, applyHit o d)]
    ∧ ((addQueue o k d s).1.queue = [] ∨
       (addQueue o k d s).1.queue = s.queue ++ [applyHit o d]) := by
  rw [addQueue_fresh hk]
  have hq : (addStaged o k d s).queue = s.queue ++ [applyHit o d] := by
    rw [addStaged_queue, setAdd_of_not_mem hv]
  have hb : (addStaged o k d s).batch = s.batch ++ [(k, applyHit o d)] := by
    rw [addStaged_batch, mapSet_fresh _ hk]
  split
  · refine ⟨?_, ?_, Or.inl (consumeQueue_queue o _)⟩
    · rw [consumeQueue_queue, consumeQueue_flatten o _ hB, hq, List.append_nil]
    · rw [consumeQueue_batch, hb]
  · exact ⟨by simp [hq], by simp [hb], Or.inr hq⟩

lemma fire_spec (o : BatchOptions V) (hB : o.onBatchCallback = true) (h : Nat)
    (s : BatchState K V) :
    (runCmd o (Cmd.fire h) s).2.flatten ++ (runCmd o (Cmd.fire h) s).1.queue
        = s.queue
    ∧ (runCmd o (Cmd.fire h) s).1.batch = s.batch
    ∧ ((runCmd o (Cmd.fire h) s).1.queue = [] ∨
       (runCmd o (Cmd.fire h) s).1.queue = s.queue) := by
  unfold runCmd
  dsimp only
  split
  · split
    · refine ⟨?_, ?_, Or.inl (consumeQueue_queue o _)⟩
      · rw [consumeQueue_queue, List.append_nil, consumeQueue_flatten o _ hB]
      · rw [consumeQueue_batch]
    · exact ⟨rfl, rfl, Or.inr rfl⟩
  · exact ⟨rfl, rfl, Or.inr rfl⟩

lemma cleanupQueue_spec (o : BatchOptions V) (hB : o.onBatchCallback = true)
    (s : BatchState K V) :
    (cleanupQueue o s).2.flatten ++ (cleanupQueue o s).1.queue = s.queue
    ∧ (cleanupQueue o s).1.batch = []
    ∧ (cleanupQueue o s).1.queue = [] := by
  refine ⟨?_, rfl, rfl⟩
  show (consumeQueue o s).2.flatten ++ [] = s.queue
  rw [consumeQueue_flatten o s hB, List.append_nil]

/-- The `addQueue` calls of an event list, in order, with their derived keys. -/
def addsOf {K V : Type} : List (Cmd K V) → List (K × V)
  | [] => []
  | Cmd.add k d :: cs => (k, d) :: addsOf cs
  | Cmd.fire _ :: cs => addsOf cs
  | Cmd.cleanup :: cs => addsOf cs

lemma addsOf_adds_append_cleanup (inputs : List (K × V)) :
    addsOf (inputs.map (fun p => Cmd.add p.1 p.2) ++ [Cmd.cleanup]) = inputs := by
  induction inputs with
  | nil => rfl
  | cons p ps ih => simpa [addsOf] using ih

lemma runFrom_cleanup_last (o : BatchOptions V) (cs : List (Cmd K V)) :
    ∀ s : BatchState K V, (runFrom o s (cs ++ [Cmd.cleanup])).1.queue = [] := by
  induction cs with
  | nil => intro s; rfl
  | cons c cst ih =>
    intro s
    show (runFrom o (runCmd o c s).1 (cst ++ [Cmd.cleanup])).1.queue = []
    exact ih _

lemma runFrom_cons_spec (o : BatchOptions V) (c : Cmd K V)
    (cs : List (Cmd K V)) (s : BatchState K V) :
    (runFrom o s (c :: cs)).2.flatten ++ (runFrom o s (c :: cs)).1.queue
      = (runCmd o c s).2.flatten
        ++ ((runFrom o (runCmd o c s).1 cs).2.flatten
            ++ (runFrom o (runCmd o c s).1 cs).1.queue) := by
  show ((runCmd o c s).2 ++ (runFrom o (runCmd o c s).1 cs).2).flatten
        ++ (runFrom o (runCmd o c s).1 cs).1.queue
      = (runCmd o c s).2.flatten
        ++ ((runFrom o (runCmd o c s).1 cs).2.flatten
            ++ (runFrom o (runCmd o c s).1 cs).1.queue)
  rw [List.flatten_append, List.append_assoc]

lemma runCmd_add (o : BatchOptions V) (k : K) (d : V) (s : BatchState K V) :
    runCmd o (Cmd.add k d) s = addQueue o k d s := rfl

lemma runCmd_cleanup (o : BatchOptions V) (s : BatchState K V) :
    runCmd o Cmd.cleanup s = cleanupQueue o s := rfl

/-- Conservation: the concatenation of all flush batches followed by the still
pending queue equals the initial queue followed by the accepted payloads of the
run, in acceptance order — provided all enqueued keys are fresh and pairwise
distinct and all transformed payloads are distinct and new. -/
lemma runFrom_trace_spec (o : BatchOptions V) (hB : o.onBatchCallback = true) :
    ∀ (cmds : List (Cmd K V)) (s : BatchState K V),
      (∀ p ∈ addsOf cmds, mapHas s.batch p.1 = false) →
      ((addsOf cmds).map Prod.fst).Nodup →
      (∀ p ∈ addsOf cmds, applyHit o p.2 ∉ s.queue) →
      ((addsOf cmds).map (fun p => applyHit o p.2)).Nodup →
      (runFrom o s cmds).2.flatten ++ (runFrom o s cmds).1.queue
        = s.queue ++ (addsOf cmds).map (fun p => applyHit o p.2) := by
  intro cmds
  induction cmds with
  | nil => intro s _ _ _ _; simp [runFrom, addsOf]
  | cons c cs ih =>
    intro s hkeys hkeysN hvals hvalsN
    cases c with
    | add k d =>
      have hk : mapHas s.batch k = false := hkeys (k, d) (by simp [addsOf])
      have hv : applyHit o d ∉ s.queue := hvals (k, d) (by simp [addsOf])
      obtain ⟨hcons, hbatch, hqueue⟩ := addQueue_fresh_spec o hB hk hv
      rw [show addsOf (Cmd.add k d :: cs) = (k, d) :: addsOf cs from rfl,
          List.map_cons, List.nodup_cons] at hkeysN hvalsN
      have hih := ih (runCmd o (Cmd.add k d) s).1 ?hk' hkeysN.2 ?hv' hvalsN.2
      case hk' =>
        intro p hp
        show mapHas (addQueue o k d s).1.batch p.1 = false
        rw [hbatch, mapHas_append]
        have h1 : mapHas s.batch p.1 = false :=
          hkeys p (by simp [addsOf, hp])
        have h2 : (k == p.1) = false := by
          rw [beq_eq_false_iff_ne]
          intro hkp
          apply hkeysN.1
          rw [hkp]
          exact List.mem_map.2 ⟨p, hp, rfl⟩
        rw [h1, h2]
        rfl
      case hv' =>
        intro p hp
        show applyHit o p.2 ∉ (addQueue o k d s).1.queue
        rcases hqueue with hq | hq
        · rw [hq]; exact List.not_mem_nil _
        · rw [hq]
          intro hmem
          rcases List.mem_append.1 hmem with hmem | hmem
          · exact hvals p (by simp [addsOf, hp]) hmem
          · have heq : applyHit o p.2 = applyHit o d := List.mem_singleton.1 hmem
            apply hvalsN.1
            rw [← heq]
            exact List.mem_map.2 ⟨p, hp, rfl⟩
      simp only [runCmd_add] at hih
      rw [runFrom_cons_spec, runCmd_add, hih, ← List.append_assoc, hcons]
      show (s.queue ++ [applyHit o d]) ++ (addsOf cs).map (fun p => applyHit o p.2)
          = s.queue ++ (applyHit o d :: (addsOf cs).map (fun p => applyHit o p.2))
      rw [List.append_assoc]
      rfl
    | fire h =>
      obtain ⟨hcons, hbatch, hqueue⟩ := fire_spec o hB h s
      have hih := ih (runCmd o (Cmd.fire h) s).1 ?hk'
        (by exact hkeysN) ?hv' (by exact hvalsN)
      case hk' =>
        intro p hp
        rw [hbatch]
        exact hkeys p hp
      case hv' =>
        intro p hp
        rcases hqueue with hq | hq
        · rw [hq]; exact List.not_mem_nil _
        · rw [hq]; exact hvals p hp
      rw [runFrom_cons_spec, hih, ← List.append_assoc, hcons]
      rfl
    | cleanup =>
      obtain ⟨hcons, hbatch, hqueue⟩ := cleanupQueue_spec o hB s
      have hih := ih (runCmd o Cmd.cleanup s).1 ?hk'
        (by exact hkeysN) ?hv' (by exact hvalsN)
      case hk' =>
        intro p hp
        show mapHas (cleanupQueue o s).1.batch p.1 = false
        rw [hbatch]
        rfl
      case hv' =>
        intro p hp
        show applyHit o p.2 ∉ (cleanupQueue o s).1.queue
        rw [hqueue]
        exact List.not_mem_nil _
      simp only [runCmd_cleanup] at hih
      rw [runFrom_cons_spec, runCmd_cleanup, hih, ← List.append_assoc, hcons]
      rfl

end Conservation

/-! ### The queue never holds a value twice, and flushed batches are snapshots -/

section NodupInv

variable {K V : Type} [DecidableEq K] [DecidableEq V]

lemma nodup_runCmd {s : BatchState K V} (o : BatchOptions V) (c : Cmd K V)
    (hN : s.queue.Nodup) :
    (runCmd o c s).1.queue.Nodup ∧ ∀ b ∈ (runCmd o c s).2, b.Nodup := by
  cases c with
  | add k d =>
    rw [runCmd_add]
    cases hdup : mapHas s.batch k with
    | true =>
      rw [addQueue_dup hdup]
      exact ⟨hN, by intro b hb; cases hb⟩
    | false =>
      rw [addQueue_fresh hdup]
      have hq : (addStaged o k d s).queue.Nodup := by
        rw [addStaged_queue]
        exact setAdd_nodup hN
      split
      · constructor
        · rw [consumeQueue_queue]; exact List.nodup_nil
        · intro b hb
          rcases consumeQueue_events o (addStaged o k d s) with he | he
          · rw [he] at hb; cases hb
          · rw [he] at hb
            rw [List.mem_singleton.1 hb]
            exact hq
      · exact ⟨hq, by intro b hb; cases hb⟩
  | cleanup =>
    rw [runCmd_cleanup]
    constructor
    · exact List.nodup_nil
    · intro b hb
      have hb' : b ∈ (consumeQueue o s).2 := hb
      rcases consumeQueue_events o s with he | he
      · rw [he] at hb'; cases hb'
      · rw [he] at hb'
        rw [List.mem_singleton.1 hb']
        exact hN
  | fire h =>
    unfold runCmd
    dsimp only
    split
    · split
      · constructor
        · rw [consumeQueue_queue]; exact List.nodup_nil
        · intro b hb
          rcases consumeQueue_events o
              { s with active := s.active.filter (fun p => p.1 != h) } with he | he
          · rw [he] at hb; cases hb
          · rw [he] at hb
            rw [List.mem_singleton.1 hb]
            exact hN
      · exact ⟨hN, by intro b hb; cases hb⟩
    · exact ⟨hN, by intro b hb; cases hb⟩

lemma nodup_runFrom {s : BatchState K V} (o : BatchOptions V)
    (cmds : List (Cmd K V)) (hN : s.queue.Nodup) :
    (runFrom o s cmds).1.queue.Nodup ∧ ∀ b ∈ (runFrom o s cmds).2, b.Nodup := by
  induction cmds generalizing s with
  | nil => exact ⟨hN, by intro b hb; cases hb⟩
  | cons c cs ih =>
    obtain ⟨h1, h2⟩ := nodup_runCmd o c hN
    obtain ⟨h3, h4⟩ := ih h1
    refine ⟨h3, ?_⟩
    intro b hb
    have : b ∈ (runCmd o c s).2 ++ (runFrom o (runCmd o c s).1 cs).2 := hb
    rcases List.mem_append.1 this with hb' | hb'
    · exact h2 b hb'
    · exact h4 b hb'

lemma nodup_run (o : BatchOptions V) (cmds : List (Cmd K V)) :
    (run o cmds).1.queue.Nodup ∧ ∀ b ∈ (run o cmds).2, b.Nodup :=
  nodup_runFrom o cmds List.nodup_nil

/-- A value occurring exactly once in the concatenation of the batches occurs
in exactly one batch. -/
lemma countP_batches_eq_one {L : List (List V)} {v : V}
    (h : L.flatten.count v = 1) :
    L.countP (fun b => decide (v ∈ b)) = 1 := by
  induction L with
  | nil => simp at h
  | cons b L ih =>
    rw [List.flatten_cons, List.count_append] at h
    by_cases hv : v ∈ b
    · have hb : 1 ≤ b.count v := List.one_le_count_iff.2 hv
      have h2 : L.flatten.count v = 0 := by omega
      have h3 : L.countP (fun b => decide (v ∈ b)) = 0 := by
        rw [List.countP_eq_zero]
        intro b' hb'
        rw [List.count_eq_zero] at h2
        simp only [decide_eq_true_eq]
        intro hvb'
        exact h2 (List.mem_flatten.2 ⟨b', hb', hvb'⟩)
      rw [List.countP_cons, h3]
      simp [hv]
    · rw [(List.count_eq_zero).2 hv] at h
      rw [List.countP_cons]
      have hd : (decide (v ∈ b)) = false := by simp [hv]
      rw [hd]
      simp only [Bool.false_eq_true, if_false, Nat.add_zero]
      exact ih (by omega)

end NodupInv

/-! ### The behaviour depends on the options only through the effective
configuration `TIMEOUT`, `THRESHOLD`, `BATCH_KEY`, `onHitCallback`,
`onBatchCallback`. -/

section Congruence

variable {K V : Type} [DecidableEq K] [DecidableEq V]

lemma applyHit_congr {o1 o2 : BatchOptions V}
    (hH : o1.onHitCallback = o2.onHitCallback) : applyHit o1 = applyHit o2 := by
  funext d
  unfold applyHit
  rw [hH]

lemma consumeQueue_congr {o1 o2 : BatchOptions V}
    (hB : o1.onBatchCallback = o2.onBatchCallback) (s : BatchState K V) :
    consumeQueue o1 s = consumeQueue o2 s := by
  unfold consumeQueue
  rw [hB]

lemma scheduleQueueConsumption_congr {o1 o2 : BatchOptions V}
    (hT : TIMEOUT o1 = TIMEOUT o2) (s : BatchState K V) :
    scheduleQueueConsumption o1 s = scheduleQueueConsumption o2 s := by
  unfold scheduleQueueConsumption
  rw [hT]

lemma addStaged_congr {o1 o2 : BatchOptions V}
    (hT : TIMEOUT o1 = TIMEOUT o2) (hH : o1.onHitCallback = o2.onHitCallback)
    (k : K) (d : V) (s : BatchState K V) :
    addStaged o1 k d s = addStaged o2 k d s := by
  unfold addStaged
  rw [applyHit_congr hH]
  dsimp only
  split
  · rw [scheduleQueueConsumption_congr hT]
  · rfl

lemma addQueue_congr {o1 o2 : BatchOptions V}
    (hT : TIMEOUT o1 = TIMEOUT o2) (hTh : THRESHOLD o1 = THRESHOLD o2)
    (hH : o1.onHitCallback = o2.onHitCallback)
    (hB : o1.onBatchCallback = o2.onBatchCallback)
    (k : K) (d : V) (s : BatchState K V) :
    addQueue o1 k d s = addQueue o2 k d s := by
  unfold addQueue
  rw [addStaged_congr hT hH, hTh]
  dsimp only
  split
  · rfl
  · split
    · rw [consumeQueue_congr hB]
    · rfl

lemma cleanupQueue_congr {o1 o2 : BatchOptions V}
    (hB : o1.onBatchCallback = o2.onBatchCallback) (s : BatchState K V) :
    cleanupQueue o1 s = cleanupQueue o2 s := by
  unfold cleanupQueue
  rw [consumeQueue_congr hB]

lemma runCmd_congr {o1 o2 : BatchOptions V}
    (hT : TIMEOUT o1 = TIMEOUT o2) (hTh : THRESHOLD o1 = THRESHOLD o2)
    (hH : o1.onHitCallback = o2.onHitCallback)
    (hB : o1.onBatchCallback = o2.onBatchCallback)
    (c : Cmd K V) (s : BatchState K V) :
    runCmd o1 c s = runCmd o2 c s := by
  cases c with
  | add k d => rw [runCmd_add, runCmd_add, addQueue_congr hT hTh hH hB]
  | cleanup => rw [runCmd_cleanup, runCmd_cleanup, cleanupQueue_congr hB]
  | fire h =>
    unfold runCmd
    dsimp only
    split
    · split
      · rw [consumeQueue_congr hB]
      · rfl
    · rfl

lemma runFrom_congr {o1 o2 : BatchOptions V}
    (hT : TIMEOUT o1 = TIMEOUT o2) (hTh : THRESHOLD o1 = THRESHOLD o2)
    (hH : o1.onHitCallback = o2.onHitCallback)
    (hB : o1.onBatchCallback = o2.onBatchCallback)
    (cmds : List (Cmd K V)) :
    ∀ s : BatchState K V, runFrom o1 s cmds = runFrom o2 s cmds := by
  induction cmds with
  | nil => intro s; rfl
  | cons c cs ih =>
    intro s
    show ((runFrom o1 (runCmd o1 c s).1 cs).1,
          (runCmd o1 c s).2 ++ (runFrom o1 (runCmd o1 c s).1 cs).2)
        = ((runFrom o2 (runCmd o2 c s).1 cs).1,
           (runCmd o2 c s).2 ++ (runFrom o2 (runCmd o2 c s).1 cs).2)
    rw [runCmd_congr hT hTh hH hB, ih]

lemma run_congr {o1 o2 : BatchOptions V}
    (hT : TIMEOUT o1 = TIMEOUT o2) (hTh : THRESHOLD o1 = THRESHOLD o2)
    (hH : o1.onHitCallback = o2.onHitCallback)
    (hB : o1.onBatchCallback = o2.onBatchCallback)
    (cmds : List (Cmd K V)) : run o1 cmds = run o2 cmds :=
  runFrom_congr hT hTh hH hB cmds _

lemma deriveKey_congr {o1 o2 : BatchOptions JsObj}
    (hK : BATCH_KEY o1 = BATCH_KEY o2) (d : JsObj) (now : Int) :
    deriveKey o1 d now = deriveKey o2 d now := by
  unfold deriveKey
  rw [hK]

lemma runJS_congr {o1 o2 : BatchOptions JsObj}
    (hT : TIMEOUT o1 = TIMEOUT o2) (hTh : THRESHOLD o1 = THRESHOLD o2)
    (hK : BATCH_KEY o1 = BATCH_KEY o2)
    (hH : o1.onHitCallback = o2.onHitCallback)
    (hB : o1.onBatchCallback = o2.onBatchCallback)
    (cmds : List JSCmd) : runJS o1 cmds = runJS o2 cmds := by
  unfold runJS
  have hmap : cmds.map (toCmd o1) = cmds.map (toCmd o2) := by
    apply List.map_congr_left
    intro c _
    cases c with
    | add now d =>
      show Cmd.add (deriveKey o1 d now) d = Cmd.add (deriveKey o2 d now) d
      rw [deriveKey_congr hK]
    | fire h => rfl
    | cleanup => rfl
  rw [hmap, run_congr hT hTh hH hB]

end Congruence

/-! ### Remaining component lemmas and concrete scenario instances -/

section MoreLemmas

variable {K V : Type} [DecidableEq K] [DecidableEq V]

lemma clearTimer_nextId (s : BatchState K V) : (clearTimer s).nextId = s.nextId := by
  cases s with
  | mk b q t a n => cases t <;> simp [clearTimer]

lemma consumeQueue_nextId (o : BatchOptions V) (s : BatchState K V) :
    (consumeQueue o s).1.nextId = s.nextId := by
  show (clearTimer s).nextId = s.nextId
  exact clearTimer_nextId s

lemma addStaged_nextId (o : BatchOptions V) (k : K) (d : V) (s : BatchState K V) :
    (addStaged o k d s).nextId
      = if s.timeoutHandle.isNone then s.nextId + 1 else s.nextId := by
  unfold addStaged enqueueBatch scheduleQueueConsumption
  dsimp only
  split <;> rfl

end MoreLemmas

/-- Options of the counterexample scenario: `threshold = 1`, `batchKey = 'id'`,
no `onHitCallback`, an `onBatchCallback` provided. -/
def exOptionsJS : BatchOptions JsObj := ⟨none, some 1, some (JSVal.str "id"), none, true⟩

/-- A payload whose `id` field is the number `1`. -/
def exPayload : JsObj := ⟨0, [("id", JSVal.num 1)]⟩

/-- A payload with no fields at all (no dedup field). -/
def exNoField : JsObj := ⟨1, []⟩

/-- `Nat`-keyed, `Nat`-valued options with `threshold = 5`. -/
def exOptionsNat5 : BatchOptions Nat := ⟨none, some 5, none, none, true⟩

/-- `Nat`-keyed, `Nat`-valued options with `threshold = 2`. -/
def exOptionsNat2 : BatchOptions Nat := ⟨none, some 2, none, none, true⟩

/-- A state in which key `1` was accepted with payload `10` and one timer with
handle `0` is armed: the state reached from a fresh instance by one accepted
`addQueue` under a threshold larger than `1`. -/
def exSeenState : BatchState Nat Nat := ⟨[(1, 10)], [10], some 0, [(0, 10)], 1⟩

/-! ### Claim theorems -/

/-- C1, counterexample: with `threshold = 1` and dedup field `id`, enqueuing one
payload triggers a flush (the callback receives `[exPayload]`), yet immediately
after this flush `inspect-batch` (`getBatch`) is NOT empty — the `seen` map
survives timer/threshold flushes — and a subsequent enqueue of a payload with
the previously-seen key `1` is rejected as a duplicate: the run with the second
enqueue ends in the same state with the same flush trace as the run without it. -/
theorem C1_counterexample :
    (runJS exOptionsJS [JSCmd.add 100 exPayload]).2 = [[exPayload]]
    ∧ ¬ getBatch (runJS exOptionsJS [JSCmd.add 100 exPayload]).1 = []
    ∧ runJS exOptionsJS [JSCmd.add 100 exPayload, JSCmd.add 200 exPayload]
        = runJS exOptionsJS [JSCmd.add 100 exPayload] := by
  refine ⟨by decide, by decide, by decide⟩

/-- C1, amended: `seen` and `pending` are cleared together only on the teardown
flush (`_cleanupQueue`), after which both `inspect-queue` and `inspect-batch`
report empty and any key is fresh again.  A timer- or threshold-triggered flush
(`_consumeQueue`) clears only `pending`: `seen` is unchanged, so a payload
enqueued afterwards with a key seen before that flush is still rejected as a
duplicate (the enqueue is a no-op). -/
theorem C1_flush_reset_amended {K V : Type} [DecidableEq K] [DecidableEq V]
    (o : BatchOptions V) (s : BatchState K V) (k : K) (d : V) :
    getQueue (consumeQueue o s).1 = []
    ∧ getBatch (consumeQueue o s).1 = getBatch s
    ∧ getQueue (cleanupQueue o s).1 = []
    ∧ getBatch (cleanupQueue o s).1 = []
    ∧ mapHas (getBatch (cleanupQueue o s).1) k = false
    ∧ (mapHas (getBatch s) k = true →
        addQueue o k d (consumeQueue o s).1 = ((consumeQueue o s).1, [])) := by
  refine ⟨consumeQueue_queue o s, consumeQueue_batch o s, rfl, rfl, rfl, ?_⟩
  intro hseen
  apply addQueue_dup
  show mapHas (consumeQueue o s).1.batch k = true
  rw [consumeQueue_batch]
  exact hseen

/-- C1, amended, witness: instantiated at `exOptionsNat5` and the state with
key `1` seen, showing in particular that key `1` is rejected after a
`_consumeQueue` flush. -/
theorem C1_flush_reset_amended_witness :
    getQueue (consumeQueue exOptionsNat5 exSeenState).1 = []
    ∧ getBatch (consumeQueue exOptionsNat5 exSeenState).1 = getBatch exSeenState
    ∧ getQueue (cleanupQueue exOptionsNat5 exSeenState).1 = []
    ∧ getBatch (cleanupQueue exOptionsNat5 exSeenState).1 = []
    ∧ mapHas (getBatch (cleanupQueue exOptionsNat5 exSeenState).1) 1 = false
    ∧ (mapHas (getBatch exSeenState) 1 = true →
        addQueue exOptionsNat5 1 99 (consumeQueue exOptionsNat5 exSeenState).1
          = ((consumeQueue exOptionsNat5 exSeenState).1, [])) :=
  C1_flush_reset_amended exOptionsNat5 exSeenState 1 99

/-- C2: an `addQueue` whose derived key is already in the `seen` map is a
no-op — the state is unchanged and no flush happens — and in the concrete
two-enqueue scenario (same key `1`, payloads `10` then `20`, threshold `5`) the
next flush batch contains exactly the first-accepted payload `10`. -/
theorem C2_duplicate_noop {K V : Type} [DecidableEq K] [DecidableEq V]
    (o : BatchOptions V) (k : K) (d : V) (s : BatchState K V)
    (hdup : mapHas (getBatch s) k = true) :
    addQueue o k d s = (s, [])
    ∧ (run exOptionsNat5 [Cmd.add 1 10, Cmd.add 1 20, Cmd.cleanup]).2 = [[10]] :=
  ⟨addQueue_dup hdup, by decide⟩

/-- C2 witness: key `1` is already seen in `exSeenState`, so enqueuing payload
`99` under it changes nothing. -/
theorem C2_duplicate_noop_witness :
    addQueue exOptionsNat5 1 99 exSeenState = (exSeenState, [])
    ∧ (run exOptionsNat5 [Cmd.add 1 10, Cmd.add 1 20, Cmd.cleanup]).2 = [[10]] :=
  C2_duplicate_noop exOptionsNat5 1 99 exSeenState (by decide)

/-- C3: when an accepted enqueue (fresh key) brings the pending queue's size to
the configured threshold (`THRESHOLD o ≤ size`), `addQueue` flushes
synchronously before returning: the full pending batch — all previously
pending payloads followed by the new one, in arrival order — is delivered to
the consumer callback within the `addQueue` call itself, the queue is left
empty and the scheduled timer handle is cleared. -/
theorem C3_threshold_flush {K V : Type} [DecidableEq K] [DecidableEq V]
    (o : BatchOptions V) (k : K) (d : V) (s : BatchState K V)
    (hB : o.onBatchCallback = true)
    (hk : mapHas (getBatch s) k = false)
    (hth : THRESHOLD o ≤ ((setAdd s.queue (applyHit o d)).length : Int)) :
    (addQueue o k d s).2 = [setAdd s.queue (applyHit o d)]
    ∧ getQueue (addQueue o k d s).1 = []
    ∧ (addQueue o k d s).1.timeoutHandle = none := by
  rw [addQueue_fresh hk]
  have hq := addStaged_queue o k d s
  rw [if_pos (by rw [hq]; exact hth)]
  refine ⟨?_, consumeQueue_queue o _, consumeQueue_handle o _⟩
  have hne : (addStaged o k d s).queue.isEmpty = false := by
    rw [hq]
    cases hsa : setAdd s.queue (applyHit o d) with
    | nil => exact absurd hsa (setAdd_ne_nil _ _)
    | cons a t => rfl
  rw [consumeQueue_snd, hB, hne, hq]
  rfl

/-- C3 witness: from the state with one pending payload `10` under threshold
`2`, the accepted enqueue of key `2`, payload `20` flushes `[10, 20]`
synchronously. -/
theorem C3_threshold_flush_witness :
    (addQueue exOptionsNat2 2 20 exSeenState).2
        = [setAdd exSeenState.queue (applyHit exOptionsNat2 20)]
    ∧ getQueue (addQueue exOptionsNat2 2 20 exSeenState).1 = []
    ∧ (addQueue exOptionsNat2 2 20 exSeenState).1.timeoutHandle = none :=
  C3_threshold_flush exOptionsNat2 2 20 exSeenState rfl (by decide) (by decide)

/-- C4: for every sequence of enqueues with pairwise-distinct fresh keys (and
pairwise-distinct transformed payloads, matching the object identities of a
real run) followed by teardown, the concatenation of all delivered flush
batches is exactly the list of accepted (`onHitCallback`-transformed) payloads
in arrival order, and each accepted payload occurs in exactly one flush batch
of the trace — never in two, never omitted. -/
theorem C4_order_exactly_once {K V : Type} [DecidableEq K] [DecidableEq V]
    (o : BatchOptions V) (inputs : List (K × V))
    (hB : o.onBatchCallback = true)
    (hkeys : (inputs.map Prod.fst).Nodup)
    (hvals : (inputs.map (fun p => applyHit o p.2)).Nodup) :
    (run o (inputs.map (fun p => Cmd.add p.1 p.2) ++ [Cmd.cleanup])).2.flatten
        = inputs.map (fun p => applyHit o p.2)
    ∧ ∀ v ∈ inputs.map (fun p => applyHit o p.2),
        (run o (inputs.map (fun p => Cmd.add p.1 p.2) ++ [Cmd.cleanup])).2.countP
          (fun b => decide (v ∈ b)) = 1 := by
  have hadds := addsOf_adds_append_cleanup (K := K) (V := V) inputs
  have h1 : ∀ p ∈ addsOf (inputs.map (fun p => Cmd.add p.1 p.2) ++ [Cmd.cleanup]),
      mapHas (initState K V).batch p.1 = false := fun p _ => rfl
  have h2 : ((addsOf (inputs.map (fun p => Cmd.add p.1 p.2)
      ++ [Cmd.cleanup])).map Prod.fst).Nodup := by
    rw [hadds]; exact hkeys
  have h3 : ∀ p ∈ addsOf (inputs.map (fun p => Cmd.add p.1 p.2) ++ [Cmd.cleanup]),
      applyHit o p.2 ∉ (initState K V).queue := fun p _ => List.not_mem_nil _
  have h4 : ((addsOf (inputs.map (fun p => Cmd.add p.1 p.2)
      ++ [Cmd.cleanup])).map (fun p => applyHit o p.2)).Nodup := by
    rw [hadds]; exact hvals
  have hcons := runFrom_trace_spec o hB
    (inputs.map (fun p => Cmd.add p.1 p.2) ++ [Cmd.cleanup]) (initState K V)
    h1 h2 h3 h4
  rw [hadds] at hcons
  have hqempty : (runFrom o (initState K V)
      (inputs.map (fun p => Cmd.add p.1 p.2) ++ [Cmd.cleanup])).1.queue = [] :=
    runFrom_cleanup_last o _ _
  rw [hqempty, List.append_nil] at hcons
  have hflat : (run o (inputs.map (fun p => Cmd.add p.1 p.2)
      ++ [Cmd.cleanup])).2.flatten = inputs.map (fun p => applyHit o p.2) := by
    show (runFrom o (initState K V)
        (inputs.map (fun p => Cmd.add p.1 p.2) ++ [Cmd.cleanup])).2.flatten = _
    rw [hcons]
    rfl
  refine ⟨hflat, ?_⟩
  intro v hv
  apply countP_batches_eq_one
  rw [hflat]
  exact List.count_eq_one_of_mem hvals hv

/-- C4 witness: three distinct keys under threshold `2` — the trace is
`[[10, 20], [30]]`, whose concatenation lists the payloads in arrival order,
each in exactly one batch. -/
theorem C4_order_exactly_once_witness :
    (run exOptionsNat2 ([((1 : Nat), (10 : Nat)), (2, 20), (3, 30)].map
        (fun p => Cmd.add p.1 p.2) ++ [Cmd.cleanup])).2.flatten
        = [((1 : Nat), (10 : Nat)), (2, 20), (3, 30)].map
            (fun p => applyHit exOptionsNat2 p.2)
    ∧ ∀ v ∈ [((1 : Nat), (10 : Nat)), (2, 20), (3, 30)].map
        (fun p => applyHit exOptionsNat2 p.2),
        (run exOptionsNat2 ([((1 : Nat), (10 : Nat)), (2, 20), (3, 30)].map
            (fun p => Cmd.add p.1 p.2) ++ [Cmd.cleanup])).2.countP
          (fun b => decide (v ∈ b)) = 1 :=
  C4_order_exactly_once exOptionsNat2 [(1, 10), (2, 20), (3, 30)] rfl
    (by decide) (by decide)

/-- C5: the derived dedup key of an enqueued payload is `payload[BATCH_KEY]`
whenever that property is present and truthy, and otherwise the
timestamp-derived key `Date.now()`; consequently two payloads lacking a truthy
dedup field enqueued at different clock readings get distinct keys (duplicate
suppression is disabled for them up to timestamp collisions), and `addQueue`
uses exactly this derived key. -/
theorem C5_derive_key (o : BatchOptions JsObj) (d d1 d2 : JsObj)
    (now now1 now2 : Int) (s : BatchState JSVal JsObj) :
    (JSVal.truthy (d.getField (BATCH_KEY o).propName) = true →
        deriveKey o d now = d.getField (BATCH_KEY o).propName)
    ∧ (JSVal.truthy (d.getField (BATCH_KEY o).propName) = false →
        deriveKey o d now = JSVal.num now)
    ∧ (JSVal.truthy (d1.getField (BATCH_KEY o).propName) = false →
        JSVal.truthy (d2.getField (BATCH_KEY o).propName) = false →
        now1 ≠ now2 → deriveKey o d1 now1 ≠ deriveKey o d2 now2)
    ∧ addQueueJS o now d s = addQueue o (deriveKey o d now) d s := by
  refine ⟨?_, ?_, ?_, rfl⟩
  · intro ht
    unfold deriveKey
    dsimp only
    rw [ht]
    rfl
  · intro ht
    unfold deriveKey
    dsimp only
    rw [ht]
    rfl
  · intro h1 h2 hne
    unfold deriveKey
    dsimp only
    rw [h1, h2]
    intro heq
    exact hne (JSVal.num.inj (by simpa using heq))

/-- C5 witness: `exPayload` has a truthy `id` field and gets key `num 1`;
`exNoField` lacks the field, so clock readings `1` and `2` give distinct
keys. -/
theorem C5_derive_key_witness :
    deriveKey exOptionsJS exPayload 5 = JSVal.num 1
    ∧ deriveKey exOptionsJS exNoField 1 ≠ deriveKey exOptionsJS exNoField 2 := by
  constructor
  · have h := (C5_derive_key exOptionsJS exPayload exNoField exNoField 5 1 2
      (initState JSVal JsObj)).1 (by decide)
    exact h.trans (by decide)
  · exact (C5_derive_key exOptionsJS exPayload exNoField exNoField 5 1 2
      (initState JSVal JsObj)).2.2.1 (by decide) (by decide) (by decide)

/-- C6: in every reachable state there is at most one armed flush timer, and an
accepted `addQueue` arms a new timer (the handle counter advances) exactly when
the queue was empty before the call — equivalently, by the timer invariant,
exactly when no timer handle was held. -/
theorem C6_single_timer {K V : Type} [DecidableEq K] [DecidableEq V]
    (o : BatchOptions V) (cmds : List (Cmd K V)) (k : K) (d : V)
    (s : BatchState K V) (hs : TimerInv s)
    (hk : mapHas (getBatch s) k = false) :
    ((run o cmds).1.active).length ≤ 1
    ∧ ((addQueue o k d s).1.nextId = s.nextId + 1 ↔ getQueue s = []) := by
  constructor
  · rcases timerInv_run o cmds with ⟨h1, h2, h3⟩ | ⟨h, dl, h1, h2, h3⟩
    · rw [h2]; exact Nat.zero_le 1
    · rw [h2]; exact Nat.le_refl 1
  · rw [addQueue_fresh hk]
    have hnext : (if THRESHOLD o ≤ ((addStaged o k d s).queue.length : Int)
        then consumeQueue o (addStaged o k d s)
        else (addStaged o k d s, [])).1.nextId = (addStaged o k d s).nextId := by
      split
      · exact consumeQueue_nextId o _
      · rfl
    rw [hnext, addStaged_nextId]
    rcases hs with ⟨h1, h2, h3⟩ | ⟨h, dl, h1, h2, h3⟩
    · rw [h1]
      simp [getQueue, h3]
    · rw [h1]
      show (s.nextId = s.nextId + 1 ↔ getQueue s = [])
      constructor
      · intro hcontra
        exact absurd hcontra (Nat.ne_of_lt (Nat.lt_succ_self _))
      · intro hq
        exact absurd hq h3

/-- C6 witness: instantiated at the fresh instance (whose invariant holds
trivially) with one enqueue: one timer is armed, and the handle counter
advanced because the queue was empty. -/
theorem C6_single_timer_witness :
    ((run exOptionsNat2 [Cmd.add 1 10]).1.active).length ≤ 1
    ∧ ((addQueue exOptionsNat2 1 10 (initState Nat Nat)).1.nextId
          = (initState Nat Nat).nextId + 1
        ↔ getQueue (initState Nat Nat) = []) :=
  C6_single_timer exOptionsNat2 [Cmd.add 1 10] 1 10 (initState Nat Nat)
    (Or.inl ⟨rfl, rfl, rfl⟩) (by decide)

/-- C7: every flush (`_consumeQueue`) cancels the armed timer and resets the
stored handle to `null` before the consumer callback is invoked — the callback
argument is computed from the timer-cleared state, whose handle is `none` — and
afterwards the cancelled timer can no longer fire: a `fire` event for the
previously held handle is a no-op, so the same batch cannot be flushed a second
time by the timer after a threshold or teardown flush. -/
theorem C7_timer_cleared_before_callback {K V : Type} [DecidableEq K]
    [DecidableEq V] (o : BatchOptions V) (s : BatchState K V) (h : Nat)
    (hs : TimerInv s) (hh : s.timeoutHandle = some h) :
    (clearTimer s).timeoutHandle = none
    ∧ (consumeQueue o s).2
        = (if !(clearTimer s).queue.isEmpty && o.onBatchCallback
           then [(clearTimer s).queue] else [])
    ∧ (consumeQueue o s).1.timeoutHandle = none
    ∧ runCmd o (Cmd.fire h) (consumeQueue o s).1 = ((consumeQueue o s).1, []) := by
  rcases hs with ⟨h1, h2, h3⟩ | ⟨hx, dl, h1, h2, h3⟩
  · rw [h1] at hh
    cases hh
  · have hact : (consumeQueue o s).1.active = [] := by
      show (clearTimer s).active = []
      simp [clearTimer, h1, h2]
    refine ⟨clearTimer_handle s, rfl, consumeQueue_handle o s, ?_⟩
    unfold runCmd
    dsimp only
    rw [hact]
    simp

/-- C7 witness: instantiated at the reachable state with an armed timer of
handle `0`: after the flush the handle is cleared and firing `0` is a no-op. -/
theorem C7_timer_cleared_before_callback_witness :
    (clearTimer exSeenState).timeoutHandle = none
    ∧ (consumeQueue exOptionsNat5 exSeenState).2
        = (if !(clearTimer exSeenState).queue.isEmpty
              && exOptionsNat5.onBatchCallback
           then [(clearTimer exSeenState).queue] else [])
    ∧ (consumeQueue exOptionsNat5 exSeenState).1.timeoutHandle = none
    ∧ runCmd exOptionsNat5 (Cmd.fire 0) (consumeQueue exOptionsNat5 exSeenState).1
        = ((consumeQueue exOptionsNat5 exSeenState).1, []) :=
  C7_timer_cleared_before_callback exOptionsNat5 exSeenState 0
    (Or.inr ⟨0, 10, rfl, rfl, by decide⟩) rfl

/-- C8: enqueuing one item into a fresh instance (threshold not yet reached)
and then tearing down yields exactly one flush containing that item; after
teardown no timer is armed (so no timer can fire afterwards: every `fire` is a
no-op), both `seen` and `pending` are empty, and a second teardown is
idempotent — it changes no state and delivers no callback.  Moreover teardown
clears `seen` and `pending` unconditionally, from any state. -/
theorem C8_teardown {K V : Type} [DecidableEq K] [DecidableEq V]
    (o : BatchOptions V) (k : K) (d : V)
    (hB : o.onBatchCallback = true) (hth : 2 ≤ THRESHOLD o) :
    (run o [Cmd.add k d, Cmd.cleanup]).2 = [[applyHit o d]]
    ∧ (run o [Cmd.add k d, Cmd.cleanup]).1.active = []
    ∧ getBatch (run o [Cmd.add k d, Cmd.cleanup]).1 = []
    ∧ getQueue (run o [Cmd.add k d, Cmd.cleanup]).1 = []
    ∧ (∀ h, runCmd o (Cmd.fire h) (run o [Cmd.add k d, Cmd.cleanup]).1
          = ((run o [Cmd.add k d, Cmd.cleanup]).1, []))
    ∧ runCmd o Cmd.cleanup (run o [Cmd.add k d, Cmd.cleanup]).1
        = ((run o [Cmd.add k d, Cmd.cleanup]).1, [])
    ∧ (∀ s : BatchState K V, getBatch (cleanupQueue o s).1 = []
          ∧ getQueue (cleanupQueue o s).1 = []) := by
  have hadd : addQueue o k d (initState K V)
      = (⟨[(k, applyHit o d)], [applyHit o d], some 0, [(0, TIMEOUT o)], 1⟩, []) := by
    rw [addQueue_fresh (show mapHas (initState K V).batch k = false from rfl)]
    have hstag : addStaged o k d (initState K V)
        = ⟨[(k, applyHit o d)], [applyHit o d], some 0, [(0, TIMEOUT o)], 1⟩ := by
      simp [addStaged, enqueueBatch, scheduleQueueConsumption, initState,
        mapSet, mapHas, setAdd]
    rw [hstag]
    have hc : ¬ (THRESHOLD o
        ≤ ((⟨[(k, applyHit o d)], [applyHit o d], some 0, [(0, TIMEOUT o)], 1⟩ :
            BatchState K V).queue.length : Int)) := by
      show ¬ (THRESHOLD o ≤ (([applyHit o d] : List V).length : Int))
      simp only [List.length_singleton, Nat.cast_one]
      omega
    rw [if_neg hc]
  have hclean : cleanupQueue o
      (⟨[(k, applyHit o d)], [applyHit o d], some 0, [(0, TIMEOUT o)], 1⟩ :
        BatchState K V)
      = (⟨[], [], none, [], 1⟩, [[applyHit o d]]) := by
    unfold cleanupQueue consumeQueue clearTimer
    dsimp only
    simp [hB]
  have hrun : run o [Cmd.add k d, Cmd.cleanup]
      = (⟨[], [], none, [], 1⟩, [[applyHit o d]]) := by
    show ((cleanupQueue o (addQueue o k d (initState K V)).1).1,
          (addQueue o k d (initState K V)).2
            ++ ((cleanupQueue o (addQueue o k d (initState K V)).1).2 ++ []))
        = (⟨[], [], none, [], 1⟩, [[applyHit o d]])
    rw [hadd]
    dsimp only
    rw [hclean]
    simp
  refine ⟨by rw [hrun], by rw [hrun], by rw [hrun]; rfl, by rw [hrun]; rfl,
    ?_, ?_, fun s => ⟨rfl, rfl⟩⟩
  · intro h
    rw [hrun]
    rfl
  · rw [hrun]
    rfl

/-- C8 witness: the concrete one-item teardown scenario with threshold `2`. -/
theorem C8_teardown_witness :
    (run exOptionsNat2 [Cmd.add 1 10, Cmd.cleanup]).2
        = [[applyHit exOptionsNat2 10]]
    ∧ (run exOptionsNat2 [Cmd.add 1 10, Cmd.cleanup]).1.active = []
    ∧ getBatch (run exOptionsNat2 [Cmd.add 1 10, Cmd.cleanup]).1 = []
    ∧ getQueue (run exOptionsNat2 [Cmd.add 1 10, Cmd.cleanup]).1 = []
    ∧ (∀ h, runCmd exOptionsNat2 (Cmd.fire h)
            (run exOptionsNat2 [Cmd.add 1 10, Cmd.cleanup]).1
          = ((run exOptionsNat2 [Cmd.add 1 10, Cmd.cleanup]).1, []))
    ∧ runCmd exOptionsNat2 Cmd.cleanup
          (run exOptionsNat2 [Cmd.add 1 10, Cmd.cleanup]).1
        = ((run exOptionsNat2 [Cmd.add 1 10, Cmd.cleanup]).1, [])
    ∧ (∀ s : BatchState Nat Nat, getBatch (cleanupQueue exOptionsNat2 s).1 = []
          ∧ getQueue (cleanupQueue exOptionsNat2 s).1 = []) :=
  C8_teardown exOptionsNat2 1 10 rfl (by decide)

/-- C9: defaults apply to every falsy configured value, not only absent ones —
`timeout = 0` behaves identically to `timeout = 10` (both give effective
`TIMEOUT = 10`), `threshold = 0` behaves identically to `threshold = 1` and
then every accepted enqueue flushes immediately, and a falsy `batchKey` (the
empty string or `0`) behaves exactly like an absent one: the effective
`BATCH_KEY` is the empty string and runs coincide. -/
theorem C9_falsy_defaults (o : BatchOptions JsObj) (cmds : List JSCmd)
    (k : JSVal) (d : JsObj) (s : BatchState JSVal JsObj)
    (hk : mapHas (getBatch s) k = false)
    (hB : o.onBatchCallback = true) :
    runJS { o with timeout := some 0 } cmds
        = runJS { o with timeout := some 10 } cmds
    ∧ TIMEOUT { o with timeout := some 0 } = 10
    ∧ runJS { o with threshold := some 0 } cmds
        = runJS { o with threshold := some 1 } cmds
    ∧ THRESHOLD { o with threshold := some 0 } = 1
    ∧ (addQueue { o with threshold := some 0 } k d s).2
        = [setAdd s.queue (applyHit { o with threshold := some 0 } d)]
    ∧ runJS { o with batchKey := some (JSVal.str "") } cmds
        = runJS { o with batchKey := none } cmds
    ∧ runJS { o with batchKey := some (JSVal.num 0) } cmds
        = runJS { o with batchKey := none } cmds
    ∧ BATCH_KEY { o with batchKey := some (JSVal.str "") } = JSVal.str ""
    ∧ BATCH_KEY { o with batchKey := some (JSVal.num 0) } = JSVal.str "" := by
  refine ⟨@runJS_congr { o with timeout := some 0 } { o with timeout := some 10 }
      rfl rfl rfl rfl rfl cmds, rfl,
    @runJS_congr { o with threshold := some 0 } { o with threshold := some 1 }
      rfl rfl rfl rfl rfl cmds, rfl, ?_,
    @runJS_congr { o with batchKey := some (JSVal.str "") }
      { o with batchKey := none } rfl rfl rfl rfl rfl cmds,
    @runJS_congr { o with batchKey := some (JSVal.num 0) }
      { o with batchKey := none } rfl rfl rfl rfl rfl cmds, rfl, rfl⟩
  rw [addQueue_fresh hk]
  have hq := addStaged_queue { o with threshold := some 0 } k d s
  have hpos : THRESHOLD { o with threshold := some 0 }
      ≤ (((addStaged { o with threshold := some 0 } k d s).queue.length : Int)) := by
    rw [hq]
    show (1 : Int) ≤ _
    exact_mod_cast one_le_length_setAdd s.queue
      (applyHit { o with threshold := some 0 } d)
  rw [if_pos hpos]
  have hne : (addStaged { o with threshold := some 0 } k d s).queue.isEmpty
      = false := by
    rw [hq]
    cases hsa : setAdd s.queue (applyHit { o with threshold := some 0 } d) with
    | nil => exact absurd hsa (setAdd_ne_nil _ _)
    | cons a t => rfl
  rw [consumeQueue_snd]
  have hB' : ({ o with threshold := some 0 } :
      BatchOptions JsObj).onBatchCallback = true := hB
  have hcond : (!(addStaged { o with threshold := some 0 } k d s).queue.isEmpty
      && ({ o with threshold := some 0 } : BatchOptions JsObj).onBatchCallback)
      = true := by
    rw [hne, hB']
    rfl
  rw [hcond, if_pos rfl, hq]

/-- C9 witness: instantiated at `exOptionsJS`, one enqueue of `exPayload`, and
a fresh state with key `num 7`. -/
theorem C9_falsy_defaults_witness :
    runJS { exOptionsJS with timeout := some 0 } [JSCmd.add 100 exPayload]
        = runJS { exOptionsJS with timeout := some 10 } [JSCmd.add 100 exPayload]
    ∧ TIMEOUT { exOptionsJS with timeout := some 0 } = 10
    ∧ runJS { exOptionsJS with threshold := some 0 } [JSCmd.add 100 exPayload]
        = runJS { exOptionsJS with threshold := some 1 } [JSCmd.add 100 exPayload]
    ∧ THRESHOLD { exOptionsJS with threshold := some 0 } = 1
    ∧ (addQueue { exOptionsJS with threshold := some 0 } (JSVal.num 7) exPayload
          (initState JSVal JsObj)).2
        = [setAdd (initState JSVal JsObj).queue
            (applyHit { exOptionsJS with threshold := some 0 } exPayload)]
    ∧ runJS { exOptionsJS with batchKey := some (JSVal.str "") }
          [JSCmd.add 100 exPayload]
        = runJS { exOptionsJS with batchKey := none } [JSCmd.add 100 exPayload]
    ∧ runJS { exOptionsJS with batchKey := some (JSVal.num 0) }
          [JSCmd.add 100 exPayload]
        = runJS { exOptionsJS with batchKey := none } [JSCmd.add 100 exPayload]
    ∧ BATCH_KEY { exOptionsJS with batchKey := some (JSVal.str "") }
        = JSVal.str ""
    ∧ BATCH_KEY { exOptionsJS with batchKey := some (JSVal.num 0) }
        = JSVal.str "" :=
  C9_falsy_defaults exOptionsJS [JSCmd.add 100 exPayload] (JSVal.num 7)
    exPayload (initState JSVal JsObj) rfl rfl

/-- C10: the pending queue deduplicates by value identity, separately from
key-based dedup — an accepted enqueue (fresh key) whose transformed payload is
already in the queue appends a new entry to `seen` but leaves `pending`
unchanged, emits no flush (when the queue was below threshold, its size does
not advance toward it), and in every run the queue and every flushed batch
contain each value at most once. -/
theorem C10_value_identity {K V : Type} [DecidableEq K] [DecidableEq V]
    (o : BatchOptions V) (k : K) (d : V) (s : BatchState K V)
    (cmds : List (Cmd K V))
    (hk : mapHas (getBatch s) k = false)
    (hv : applyHit o d ∈ getQueue s)
    (hth : ((getQueue s).length : Int) < THRESHOLD o) :
    getQueue (addQueue o k d s).1 = getQueue s
    ∧ getBatch (addQueue o k d s).1 = getBatch s ++ [(k, applyHit o d)]
    ∧ (addQueue o k d s).2 = []
    ∧ (run o cmds).1.queue.Nodup
    ∧ ∀ b ∈ (run o cmds).2, b.Nodup := by
  have hk' : mapHas s.batch k = false := hk
  have hv' : applyHit o d ∈ s.queue := hv
  have hth' : ((s.queue.length : Int)) < THRESHOLD o := hth
  have hq : (addStaged o k d s).queue = s.queue := by
    rw [addStaged_queue, setAdd_of_mem hv']
  rw [addQueue_fresh hk']
  rw [if_neg (by rw [hq]; omega)]
  refine ⟨hq, ?_, rfl, (nodup_run o cmds).1, (nodup_run o cmds).2⟩
  show (addStaged o k d s).batch = s.batch ++ [(k, applyHit o d)]
  rw [addStaged_batch, mapSet_fresh _ hk']

/-- C10 witness: key `2` is fresh in `exSeenState` but the (identity-)
transformed payload `10` is already pending: `seen` gains the entry
`(2, 10)`, `pending` stays `[10]`, and no flush happens. -/
theorem C10_value_identity_witness :
    getQueue (addQueue exOptionsNat5 2 10 exSeenState).1 = getQueue exSeenState
    ∧ getBatch (addQueue exOptionsNat5 2 10 exSeenState).1
        = getBatch exSeenState ++ [(2, applyHit exOptionsNat5 10)]
    ∧ (addQueue exOptionsNat5 2 10 exSeenState).2 = []
    ∧ (run exOptionsNat5 [Cmd.add 1 10, Cmd.cleanup]).1.queue.Nodup
    ∧ ∀ b ∈ (run exOptionsNat5 [Cmd.add 1 10, Cmd.cleanup]).2, b.Nodup :=
  C10_value_identity exOptionsNat5 2 10 exSeenState [Cmd.add 1 10, Cmd.cleanup]
    (by decide) (by decide) (by decide)
